import Mathlib

/-!
Verification of the AuditSync-Pro document-processing and comparison pipeline.

The Python services are shallowly embedded: text is `List Char` (Python `str`),
bytes are `List Nat`, database rows are Lean structures, the SQLAlchemy session
is explicit state passing, and the external collaborators (OpenAI language
model, SHA-256 digest) are function parameters.  Timestamp columns
(`created_at`, `completed_at`, `assessment_date`) come from the wall clock and
are modelled as inert flags or omitted.
-/

/- ---------------------------------------------------------------------------
Python string primitives, mirrored on `List Char`.
--------------------------------------------------------------------------- -/

/-- Python `str.lower()` (ASCII case folding, as used by the source texts). -/
def lowerL (s : List Char) : List Char := s.map Char.toLower

/-- Python `str.startswith`: the first list is an initial segment of the second. -/
def startsWithL : List Char → List Char → Bool
  | [], _ => true
  | _ :: _, [] => false
  | a :: as, b :: bs => a == b && startsWithL as bs

/-- Python `needle in hay` on strings: substring test. -/
def hasSub (needle : List Char) : List Char → Bool
  | [] => startsWithL needle []
  | c :: t => startsWithL needle (c :: t) || hasSub needle t

/-- Python whitespace as stripped by `str.strip()` / split by `str.split()`. -/
def isPySpace (c : Char) : Bool :=
  c == ' ' || c == '\t' || c == '\n' || c == '\r' || c == '\x0b' || c == '\x0c'

/-- Python `str.strip()`: drop leading and trailing whitespace. -/
def pyStrip (s : List Char) : List Char :=
  ((s.dropWhile isPySpace).reverse.dropWhile isPySpace).reverse

/-- Python `text.split('\n')`. -/
def splitNl : List Char → List (List Char)
  | [] => [[]]
  | c :: t =>
    if c == '\n' then [] :: splitNl t
    else
      match splitNl t with
      | [] => [[c]]
      | l :: ls => (c :: l) :: ls

/-- Python `'\n'.join(lines)`. -/
def joinNl : List (List Char) → List Char
  | [] => []
  | [l] => l
  | l :: ls => l ++ '\n' :: joinNl ls

/-- Python `str.count(needle)`: non-overlapping occurrences, scanning left to
right.  A match at a position makes the scan resume after the matched text:
`skip` counts the remaining positions to jump over. -/
def countOccAux (needle : List Char) : List Char → Nat → Nat
  | [], _ => 0
  | _ :: t, k + 1 => countOccAux needle t k
  | c :: t, 0 =>
    if startsWithL needle (c :: t) then
      1 + countOccAux needle t (needle.length - 1)
    else countOccAux needle t 0

/-- For an empty needle Python returns `len + 1`. -/
def countOcc (needle hay : List Char) : Nat :=
  if needle.isEmpty then hay.length + 1 else countOccAux needle hay 0

/-- Python `len(text.split())`: number of maximal non-whitespace runs. -/
def wordCountAux : List Char → Bool → Nat
  | [], _ => 0
  | c :: t, inWord =>
    if isPySpace c then wordCountAux t false
    else (if inWord then 0 else 1) + wordCountAux t true

def wordCount (text : List Char) : Nat := wordCountAux text false

/- ---------------------------------------------------------------------------
The language-model collaborator (src/services/ai_service.py).

`AIService.compare_reports` formats both (2000-character-truncated) texts into
a prompt, calls the OpenAI chat completion API and `json.loads` the reply.
The remote call and the JSON parse are the collaborator boundary: they are
modelled as a function from the two truncated texts to either a parsed
comparison dict or an error.  Any exception is caught inside
`compare_reports`, which then RETURNS `{'error': ...}` instead of raising.
--------------------------------------------------------------------------- -/

/-- Payload of a JSON value stored in a comparison column.  `emptyDict` is the
Python `{}` default used by `dict.get(key, {})`. -/
inductive PyVal where
  | emptyDict
  | payload (n : Nat)
deriving DecidableEq

/-- A successfully parsed LM comparison reply: the four optional result keys
plus `rendered`, the `str(...)` rendering of the whole dict that
`_assess_materiality` scans. -/
structure LMDict where
  key_differences : Option PyVal
  risk_alignment : Option PyVal
  compliance_gaps : Option PyVal
  recommendations : Option PyVal
  rendered : List Char
deriving DecidableEq

/-- The language-model collaborator: maps the two truncated report texts to a
parsed reply or a failure (unreachable API, unparseable JSON, ...). -/
def LMCollab : Type := List Char → List Char → Except (List Char) LMDict

/-- Return value of `AIService.compare_reports`: either the parsed dict or the
`{'error': ...}` dict built in its `except` handler.  It never raises. -/
inductive CompOut where
  | parsed (d : LMDict)
  | errorDict (msg : List Char)
deriving DecidableEq

/-- `AIService.compare_reports`: truncate both reports to 2000 characters,
call the collaborator, and catch every failure into an error dict. -/
def compare_reports (lm : LMCollab) (report_a report_b : List Char) : CompOut :=
  match lm (report_a.take 2000) (report_b.take 2000) with
  | .ok d => .parsed d
  | .error e => .errorDict ("Failed to compare reports: ".toList ++ e)

/-- Python `str(comparison_result)` as scanned by `_assess_materiality`.
For the error dict the scanned text is the error message with its dict
punctuation (quotes and braces, irrelevant to the indicator substrings)
abstracted away. -/
def strOfCompOut : CompOut → List Char
  | .parsed d => d.rendered
  | .errorDict m => "error: ".toList ++ m

/-- Python `comparison_result.get(key, {})` on the result of
`compare_reports`: the error dict has none of the four keys. -/
def dictGet (r : CompOut) (f : LMDict → Option PyVal) : PyVal :=
  match r with
  | .parsed d => (f d).getD PyVal.emptyDict
  | .errorDict _ => PyVal.emptyDict

/- ---------------------------------------------------------------------------
ComparisonService._assess_materiality (src/services/comparison_service.py,
lines 189-228).  The returned dict also carries `assessment_date`
(wall clock) and a fixed `factors_considered` list; only the level and the
score are modelled.  The `except` branch is unreachable here because the
embedded scan is total.
--------------------------------------------------------------------------- -/

structure MaterialityAssessment where
  materiality_level : List Char
  materiality_score : Nat
deriving DecidableEq

def assess_materiality (comparison_result : CompOut) : MaterialityAssessment :=
  let s := lowerL (strOfCompOut comparison_result)
  let score1 : Nat := if hasSub "material_weaknesses".toList s then 3 else 0
  let score2 : Nat := score1 + (if hasSub "significant_deficiencies".toList s then 2 else 0)
  let score3 : Nat := score2 + (if hasSub "compliance".toList s then 2 else 0)
  let level : List Char :=
    if score3 ≥ 5 then "High".toList
    else if score3 ≥ 3 then "Medium".toList
    else "Low".toList
  ⟨level, score3⟩

/-- C5: the materiality assessment is a deterministic function of the rendered
comparison output: the score adds +3 for a `material_weaknesses` indicator,
+2 for a `significant_deficiencies` indicator and +2 for a `compliance`
indicator, all matched case-insensitively; High iff score ≥ 5, Medium iff
3 ≤ score < 5, Low otherwise.  An output containing a material-weakness and a
compliance indicator but no significant-deficiency indicator scores 5 (High);
an output containing none of the three scores 0 (Low). -/
theorem materiality_deterministic :
    (∀ r : CompOut,
      (assess_materiality r).materiality_score =
        (if hasSub "material_weaknesses".toList (lowerL (strOfCompOut r)) then 3 else 0) +
        (if hasSub "significant_deficiencies".toList (lowerL (strOfCompOut r)) then 2 else 0) +
        (if hasSub "compliance".toList (lowerL (strOfCompOut r)) then 2 else 0) ∧
      ((assess_materiality r).materiality_level = "High".toList ↔
        5 ≤ (assess_materiality r).materiality_score) ∧
      ((assess_materiality r).materiality_level = "Medium".toList ↔
        3 ≤ (assess_materiality r).materiality_score ∧
          (assess_materiality r).materiality_score < 5) ∧
      ((assess_materiality r).materiality_level = "Low".toList ↔
        (assess_materiality r).materiality_score < 3)) ∧
    assess_materiality
        (.parsed ⟨none, none, none, none, "Material_Weaknesses: yes; compliance gap noted".toList⟩) =
      ⟨"High".toList, 5⟩ ∧
    assess_materiality (.parsed ⟨none, none, none, none, "no findings of note".toList⟩) =
      ⟨"Low".toList, 0⟩ := by
  refine ⟨fun r => ?_, by decide, by decide⟩
  simp only [assess_materiality]
  cases hb1 : hasSub "material_weaknesses".toList (lowerL (strOfCompOut r)) <;>
    cases hb2 : hasSub "significant_deficiencies".toList (lowerL (strOfCompOut r)) <;>
      cases hb3 : hasSub "compliance".toList (lowerL (strOfCompOut r)) <;>
        simp

/- ---------------------------------------------------------------------------
ComparisonService._extract_section (src/services/comparison_service.py,
lines 158-187).  A line scan: a line containing the section-name keyword
(case-insensitively) opens the section; subsequent lines are collected until a
bare recognised header line is hit or the collected list exceeds 50 lines.
The `except` branch is unreachable in the embedding (the scan is total).
--------------------------------------------------------------------------- -/

/-- The recognised section-header keywords of the inner `any(...)` check. -/
def stopHeaders : List (List Char) :=
  ["summary".toList, "scope".toList, "findings".toList, "recommendations".toList]

/-- `any(header in line.lower() for ...)` combined with
`line.strip() and not line.startswith(' ')`: a new bare section-header line. -/
def sectionHeaderStop (line : List Char) : Bool :=
  stopHeaders.any (fun h => hasSub h (lowerL line)) &&
    (!(pyStrip line).isEmpty && !startsWithL [' '] line)

/-- The `for line in lines` loop of `_extract_section`, with the
`in_section` flag and the collected `section_content` made explicit. -/
def extractLoop (keyword : List Char) : List (List Char) → Bool → List (List Char) →
    List (List Char)
  | [], _, acc => acc
  | line :: rest, inSection, acc =>
    if hasSub keyword (lowerL line) then extractLoop keyword rest true acc
    else if inSection then
      if sectionHeaderStop line then acc
      else
        let acc2 := acc ++ [line]
        if acc2.length > 50 then acc2
        else extractLoop keyword rest true acc2
    else extractLoop keyword rest false acc

def extract_section (text : List Char) (section_name : List Char) : Option (List Char) :=
  let content := extractLoop (lowerL section_name) (splitNl text) false []
  if content.isEmpty then none else some (pyStrip (joinNl content))

/-- The collected line list never exceeds 51 entries: the `> 50` cap is
checked only after appending. -/
theorem extractLoop_length_le (keyword : List Char) :
    ∀ (lines : List (List Char)) (inSection : Bool) (acc : List (List Char)),
      acc.length ≤ 50 → (extractLoop keyword lines inSection acc).length ≤ 51
  | [], _, acc, h => by simpa [extractLoop] using Nat.le_succ_of_le h
  | line :: rest, inSection, acc, h => by
    simp only [extractLoop]
    split
    · exact extractLoop_length_le keyword rest true acc h
    · split
      · split
        · exact Nat.le_succ_of_le h
        · split
          · rename_i hlen
            simp only [List.length_append, List.length_cons, List.length_nil] at hlen ⊢
            omega
          · rename_i hlen
            refine extractLoop_length_le keyword rest true _ ?_
            simp only [List.length_append, List.length_cons, List.length_nil] at hlen ⊢
            omega
      · exact extractLoop_length_le keyword rest false acc h

/-- Everything collected by the loop comes from the accumulator or the lines. -/
theorem extractLoop_mem (keyword : List Char) :
    ∀ (lines : List (List Char)) (inSection : Bool) (acc : List (List Char)),
      ∀ x ∈ extractLoop keyword lines inSection acc, x ∈ acc ∨ x ∈ lines
  | [], _, acc, x, hx => by
    simp only [extractLoop] at hx
    exact Or.inl hx
  | line :: rest, inSection, acc, x, hx => by
    simp only [extractLoop] at hx
    split at hx
    · rcases extractLoop_mem keyword rest true acc x hx with h | h
      · exact Or.inl h
      · exact Or.inr (List.mem_cons_of_mem _ h)
    · split at hx
      · split at hx
        · exact Or.inl hx
        · split at hx
          · rcases List.mem_append.1 hx with h | h
            · exact Or.inl h
            · exact Or.inr (List.mem_cons.2 (Or.inl (List.mem_singleton.1 h)))
          · rcases extractLoop_mem keyword rest true _ x hx with h | h
            · rcases List.mem_append.1 h with h' | h'
              · exact Or.inl h'
              · exact Or.inr (List.mem_cons.2 (Or.inl (List.mem_singleton.1 h')))
            · exact Or.inr (List.mem_cons_of_mem _ h)
      · rcases extractLoop_mem keyword rest false acc x hx with h | h
        · exact Or.inl h
        · exact Or.inr (List.mem_cons_of_mem _ h)

theorem splitNl_ne_nil (s : List Char) : splitNl s ≠ [] := by
  induction s with
  | nil => simp [splitNl]
  | cons c t ih =>
    simp only [splitNl]
    split
    · simp
    · cases h : splitNl t with
      | nil => exact absurd h ih
      | cons l ls => simp

/-- The pieces produced by splitting on newlines contain no newline. -/
theorem splitNl_no_nl (s : List Char) : ∀ l ∈ splitNl s, '\n' ∉ l := by
  induction s with
  | nil => intro l hl; simp [splitNl] at hl; simp [hl]
  | cons c t ih =>
    intro l hl
    simp only [splitNl] at hl
    split at hl
    · rename_i hc
      rcases List.mem_cons.1 hl with h | h
      · simp [h]
      · exact ih l h
    · rename_i hc
      cases h : splitNl t with
      | nil => exact absurd h (splitNl_ne_nil t)
      | cons p ps =>
        rw [h] at hl
        rcases List.mem_cons.1 hl with h' | h'
        · subst h'
          intro hmem
          rcases List.mem_cons.1 hmem with h'' | h''
          · exact hc (by rw [h'']; exact beq_self_eq_true c)
          · exact ih p (h ▸ List.mem_cons_self p ps) h''
        · exact ih l (h ▸ List.mem_cons_of_mem p h')

/-- Splitting on newlines yields one more piece than the newline count. -/
theorem length_splitNl (s : List Char) : (splitNl s).length = s.count '\n' + 1 := by
  induction s with
  | nil => simp [splitNl]
  | cons c t ih =>
    simp only [splitNl]
    split
    · rename_i hc
      have hceq : c = '\n' := (beq_iff_eq (a := c) (b := '\n')).1 hc
      simp only [List.length_cons, ih, List.count_cons]
      simp [hceq]
    · rename_i hc
      cases h : splitNl t with
      | nil => exact absurd h (splitNl_ne_nil t)
      | cons p ps =>
        have hne : c ≠ '\n' := by
          intro hcc
          exact hc (by rw [hcc]; exact beq_self_eq_true _)
        simp only [List.length_cons, List.count_cons]
        rw [h] at ih
        simp only [List.length_cons] at ih
        simp [ih, hne]

/-- Joining newline-free pieces with newlines puts in exactly
`parts.length - 1` newlines. -/
theorem count_joinNl : ∀ (parts : List (List Char)), (∀ p ∈ parts, '\n' ∉ p) →
    (joinNl parts).count '\n' = parts.length - 1
  | [], _ => by simp [joinNl]
  | [l], h => by
    simp only [joinNl, List.length_cons, List.length_nil]
    have := h l (List.mem_singleton.2 rfl)
    simp [List.count_eq_zero_of_not_mem this]
  | l :: l' :: ls, h => by
    have tail_eq := count_joinNl (l' :: ls) (fun p hp => h p (List.mem_cons_of_mem l hp))
    have hl : '\n' ∉ l := h l (List.mem_cons_self l (l' :: ls))
    simp only [joinNl, List.count_append, List.count_cons, List.length_cons]
    rw [List.count_eq_zero_of_not_mem hl, tail_eq]
    simp

/-- Stripping never increases the newline count (it drops end characters). -/
theorem count_pyStrip_le (s : List Char) (c : Char) :
    (pyStrip s).count c ≤ s.count c := by
  unfold pyStrip
  calc (((s.dropWhile isPySpace).reverse.dropWhile isPySpace).reverse).count c
      = (((s.dropWhile isPySpace).reverse.dropWhile isPySpace)).count c :=
        List.count_reverse ..
    _ ≤ ((s.dropWhile isPySpace).reverse).count c :=
        (List.dropWhile_sublist isPySpace).count_le c
    _ = (s.dropWhile isPySpace).count c := List.count_reverse ..
    _ ≤ s.count c := (List.dropWhile_sublist isPySpace).count_le c

/-- C6 (amended): the captured section excerpt is truncated, but at 51 lines,
not 50 — the cap is checked only after appending, so the loop collects one
line past the configured limit. -/
theorem section_capture_bound (text section_name ex : List Char)
    (h : extract_section text section_name = some ex) :
    (splitNl ex).length ≤ 51 := by
  unfold extract_section at h
  set content := extractLoop (lowerL section_name) (splitNl text) false [] with hcontent
  by_cases hc : content.isEmpty
  · simp [hc] at h
  · rw [if_neg hc, Option.some.injEq] at h
    have hlen : content.length ≤ 51 :=
      extractLoop_length_le (lowerL section_name) (splitNl text) false [] (by simp)
    have hfree : ∀ p ∈ content, '\n' ∉ p := by
      intro p hp
      rcases extractLoop_mem (lowerL section_name) (splitNl text) false [] p hp with h' | h'
      · simp at h'
      · exact splitNl_no_nl text p h'
    have hcount : (joinNl content).count '\n' = content.length - 1 :=
      count_joinNl content hfree
    have hex : ex.count '\n' ≤ content.length - 1 := by
      rw [← h, ← hcount]
      exact count_pyStrip_le _ _
    have hpos : 1 ≤ content.length := by
      cases hcl : content with
      | nil => rw [hcl] at hc; simp at hc
      | cons a as => simp [hcl]
    rw [length_splitNl]
    omega

/-- A 200-line "Key Findings" section with no other recognised header. -/
def keyFindingsDoc : List Char :=
  "Key Findings".toList ++ (List.replicate 200 ('\n' :: ['x'])).flatten

/-- C6 (counterexample): on a 200-line "Key Findings" section the captured
excerpt has 51 lines, not at most the configured cap of 50. -/
theorem section_cap_counterexample :
    (splitNl ((extract_section keyFindingsDoc "Key Findings".toList).getD [])).length = 51 ∧
    (extract_section keyFindingsDoc "Key Findings".toList).isSome = true ∧
    ¬ (splitNl ((extract_section keyFindingsDoc "Key Findings".toList).getD [])).length ≤ 50 := by
  refine ⟨by decide, by decide, by decide⟩

/-- Witness for the amended C6 bound at a concrete document. -/
theorem section_capture_bound_witness :
    (splitNl "x".toList).length ≤ 51 :=
  section_capture_bound "Key Findings\nx".toList "Key Findings".toList "x".toList (by decide)

/- ---------------------------------------------------------------------------
ComparisonService._analyze_sections (src/services/comparison_service.py,
lines 125-156).  For a fixed ordered list of canonical sections, extract both
excerpts; when both are truthy (non-None and non-empty) call
`AIService.compare_reports` on them and key the result by the section name.
`compare_reports` is total (it returns its error dict instead of raising), so
the surrounding `except` that would discard the whole map is unreachable in
the embedding.
--------------------------------------------------------------------------- -/

def audit_sections : List (List Char) :=
  ["Executive Summary".toList, "Scope and Methodology".toList, "Key Findings".toList,
   "Material Weaknesses".toList, "Significant Deficiencies".toList,
   "Risk Assessment".toList, "Recommendations".toList, "Management Response".toList]

/-- The body of the section loop: `if source_section and target_section`
(Python truthiness: a `str` is truthy iff non-empty) guards the
sub-comparison; otherwise no entry is produced for the section. -/
def sectionEntry (lm : LMCollab) (source_text target_text sec : List Char) :
    Option CompOut :=
  match extract_section source_text sec, extract_section target_text sec with
  | some s1, some s2 =>
    if !s1.isEmpty && !s2.isEmpty then some (compare_reports lm s1 s2) else none
  | _, _ => none

def analyze_sections (lm : LMCollab) (source_text target_text : List Char) :
    List (List Char × CompOut) :=
  audit_sections.filterMap
    (fun s => (sectionEntry lm source_text target_text s).map (fun v => (s, v)))

/-- Looking a key up in an association list built by filterMap over distinct
keys recovers the generating function. -/
theorem lookup_filterMap_keyed {α β : Type} [DecidableEq α] [BEq α] [LawfulBEq α]
    (g : α → Option β) :
    ∀ (l : List α), l.Nodup → ∀ s : α,
      (l.filterMap (fun x => (g x).map (fun v => (x, v)))).lookup s =
        if s ∈ l then g s else none
  | [], _, s => by simp
  | x :: t, hnd, s => by
    have hx : x ∉ t := (List.nodup_cons.1 hnd).1
    have ht : t.Nodup := (List.nodup_cons.1 hnd).2
    by_cases hsx : s = x
    · subst hsx
      cases hgx : g s with
      | none =>
        simp only [List.filterMap_cons, hgx, Option.map_none']
        rw [lookup_filterMap_keyed g t ht s]
        simp [hx, hgx]
      | some v =>
        simp only [List.filterMap_cons, hgx, Option.map_some']
        simp [List.lookup, hgx]
    · cases hgx : g x with
      | none =>
        simp only [List.filterMap_cons, hgx, Option.map_none']
        rw [lookup_filterMap_keyed g t ht s]
        simp [List.mem_cons, hsx]
      | some v =>
        simp only [List.filterMap_cons, hgx, Option.map_some']
        have hbeq : (s == x) = false := beq_eq_false_iff_ne.2 hsx
        simp only [List.lookup, hbeq]
        rw [lookup_filterMap_keyed g t ht s]
        simp [List.mem_cons, hsx]

theorem audit_sections_nodup : audit_sections.Nodup := by decide

/-- C7 (amended): the section map holds an entry for a name exactly when the
name is canonical and extraction was truthy in both documents (so sections
that fail extraction are omitted, never null-filled, and every stored value
is a `compare_reports` output); but when the sub-comparison's LM call fails,
the section's entry is still present, holding the caught error dict — it is
not omitted. -/
theorem section_map_characterization :
    (∀ (lm : LMCollab) (a b s : List Char),
      (analyze_sections lm a b).lookup s =
        if s ∈ audit_sections then sectionEntry lm a b s else none) ∧
    (∀ (lm : LMCollab) (a b s e1 e2 msg : List Char),
      s ∈ audit_sections →
      extract_section a s = some e1 → extract_section b s = some e2 →
      e1 ≠ [] → e2 ≠ [] →
      lm (e1.take 2000) (e2.take 2000) = .error msg →
      (analyze_sections lm a b).lookup s =
        some (.errorDict ("Failed to compare reports: ".toList ++ msg))) := by
  constructor
  · intro lm a b s
    exact lookup_filterMap_keyed (sectionEntry lm a b) audit_sections audit_sections_nodup s
  · intro lm a b s e1 e2 msg hs h1 h2 hne1 hne2 hlm
    unfold analyze_sections
    rw [lookup_filterMap_keyed (sectionEntry lm a b) audit_sections audit_sections_nodup s,
      if_pos hs]
    have hb1 : e1.isEmpty = false := by
      cases e1 with
      | nil => exact absurd rfl hne1
      | cons c t => rfl
    have hb2 : e2.isEmpty = false := by
      cases e2 with
      | nil => exact absurd rfl hne2
      | cons c t => rfl
    simp only [sectionEntry, h1, h2, hb1, hb2, Bool.not_false, Bool.and_self, if_true,
      compare_reports, hlm]

/-- Witness: on concrete documents whose "Executive Summary" extracts on both
sides, a failing LM call still yields a present error-dict entry. -/
theorem section_map_characterization_witness :
    (analyze_sections (fun _ _ => .error "LM down".toList)
        "executive summary\ngood content".toList "executive summary\ngood content".toList).lookup
      "Executive Summary".toList =
      some (.errorDict ("Failed to compare reports: ".toList ++ "LM down".toList)) :=
  section_map_characterization.2 (fun _ _ => .error "LM down".toList)
    "executive summary\ngood content".toList "executive summary\ngood content".toList
    "Executive Summary".toList "good content".toList "good content".toList "LM down".toList
    (by decide) (by decide) (by decide) (by decide) (by decide) rfl

/-- C7 (counterexample): a failing sub-comparison does not leave the section's
entry absent — the entry is present with the error dict; here the claim's
"only that section's entry is absent" fails at a concrete input. -/
theorem section_failure_entry_present_counterexample :
    ((analyze_sections (fun _ _ => .error "boom".toList)
        "executive summary\nalpha body".toList "executive summary\nalpha body".toList).lookup
      "Executive Summary".toList ≠ none) ∧
    ((analyze_sections (fun _ _ => .error "boom".toList)
        "executive summary\nalpha body".toList "executive summary\nalpha body".toList).lookup
      "Executive Summary".toList =
        some (.errorDict "Failed to compare reports: boom".toList)) := by
  refine ⟨by decide, by decide⟩

/- ---------------------------------------------------------------------------
AIService.calculate_similarity (src/services/ai_service.py, lines 170-188).
numpy float arithmetic is modelled over ℝ.  `np.dot` on 1-D arrays of
different lengths raises, which the `except` turns into a 0.0 return: the
embedding guards on equal length.  `np.linalg.norm` is the Euclidean norm.
--------------------------------------------------------------------------- -/

/-- `np.dot` on two equal-length 1-D arrays (0 on the mismatch patterns,
which the caller's length guard excludes). -/
def dotL : List ℝ → List ℝ → ℝ
  | [], _ => 0
  | _, [] => 0
  | a :: as, b :: bs => a * b + dotL as bs

/-- `np.linalg.norm`. -/
noncomputable def normL (v : List ℝ) : ℝ := Real.sqrt (dotL v v)

/-- The textbook cosine similarity of two vectors (the spec's `cos`). -/
noncomputable def cosine_similarity (a b : List ℝ) : ℝ :=
  dotL a b / (normL a * normL b)

/-- `AIService.calculate_similarity`: cosine similarity rescaled to [0,1] by
`(similarity + 1) / 2`; a length mismatch makes `np.dot` raise and the
`except` handler return 0.0. -/
noncomputable def calculate_similarity (embeddings_a embeddings_b : List ℝ) : ℝ :=
  if embeddings_a.length = embeddings_b.length then
    let dot_product := dotL embeddings_a embeddings_b
    let norm_a := normL embeddings_a
    let norm_b := normL embeddings_b
    let similarity := dot_product / (norm_a * norm_b)
    (similarity + 1) / 2
  else 0

theorem dotL_self_nonneg : ∀ a : List ℝ, 0 ≤ dotL a a
  | [] => le_refl 0
  | x :: as => by
    have ih := dotL_self_nonneg as
    simp only [dotL]
    nlinarith [mul_self_nonneg x]

/-- Cauchy–Schwarz for `dotL`, by induction on the lists. -/
theorem dotL_sq_le : ∀ a b : List ℝ, (dotL a b) ^ 2 ≤ dotL a a * dotL b b
  | [], b => by
    simp only [dotL]
    norm_num
  | _ :: _, [] => by
    simp only [dotL]
    norm_num
  | x :: as, y :: bs => by
    have ih := dotL_sq_le as bs
    have hA := dotL_self_nonneg as
    have hB := dotL_self_nonneg bs
    simp only [dotL]
    rcases eq_or_lt_of_le hA with hA0 | hApos
    · have hD0 : dotL as bs = 0 := by nlinarith [sq_nonneg (dotL as bs)]
      rw [hD0, ← hA0]
      nlinarith [mul_nonneg (mul_self_nonneg x) hB, sq_nonneg (x * y)]
    · have h2 : 0 ≤ (dotL as as + x ^ 2) * (dotL as as * dotL bs bs - dotL as bs ^ 2) :=
        mul_nonneg (by positivity) (by nlinarith)
      nlinarith [sq_nonneg (x * dotL as bs - y * dotL as as), h2, hApos]

theorem abs_dotL_le (a b : List ℝ) : |dotL a b| ≤ normL a * normL b := by
  have h := Real.sqrt_le_sqrt (dotL_sq_le a b)
  rw [Real.sqrt_sq_eq_abs, Real.sqrt_mul (dotL_self_nonneg a)] at h
  simpa [normL] using h

theorem normL_nonneg (a : List ℝ) : 0 ≤ normL a := Real.sqrt_nonneg _

/-- With nonzero norms the rescaled similarity lands in the unit interval;
the length-mismatch fallback 0.0 does too. -/
theorem calculate_similarity_mem_unit (a b : List ℝ)
    (ha : normL a ≠ 0) (hb : normL b ≠ 0) :
    0 ≤ calculate_similarity a b ∧ calculate_similarity a b ≤ 1 := by
  by_cases hlen : a.length = b.length
  · have hna : 0 < normL a := lt_of_le_of_ne (normL_nonneg a) (Ne.symm ha)
    have hnb : 0 < normL b := lt_of_le_of_ne (normL_nonneg b) (Ne.symm hb)
    have hprod : 0 < normL a * normL b := mul_pos hna hnb
    have habs := abs_dotL_le a b
    have h1 : dotL a b / (normL a * normL b) ≤ 1 := by
      rw [div_le_one hprod]
      exact le_trans (le_abs_self _) habs
    have h2 : -1 ≤ dotL a b / (normL a * normL b) := by
      rw [le_div_iff₀ hprod]
      have hneg := neg_abs_le (dotL a b)
      nlinarith
    simp only [calculate_similarity, if_pos hlen]
    constructor
    · linarith
    · linarith
  · simp [calculate_similarity, hlen]

theorem normL_pair (x y : ℝ) : normL [x, y] = Real.sqrt (x * x + y * y) := by
  simp only [normL, dotL]
  norm_num

theorem normL_one_zero : normL [(1 : ℝ), 0] = 1 := by
  rw [normL_pair]
  norm_num

theorem normL_negone_zero : normL [(-1 : ℝ), 0] = 1 := by
  rw [normL_pair]
  norm_num

/-- C8: for equal-dimension vectors of nonzero norm the computed similarity is
`(cos + 1) / 2` for the cosine similarity `cos`, hence lies in [0,1]; the pair
`[1,0]` vs `[1,0]` scores exactly 1 and `[1,0]` vs `[-1,0]` exactly 0. -/
theorem similarity_rescaled_cosine :
    (∀ a b : List ℝ, a.length = b.length → normL a ≠ 0 → normL b ≠ 0 →
      calculate_similarity a b = (cosine_similarity a b + 1) / 2 ∧
      0 ≤ calculate_similarity a b ∧ calculate_similarity a b ≤ 1) ∧
    calculate_similarity [1, 0] [1, 0] = 1 ∧
    calculate_similarity [1, 0] [-1, 0] = 0 := by
  refine ⟨fun a b hlen ha hb => ⟨?_, calculate_similarity_mem_unit a b ha hb⟩, ?_, ?_⟩
  · simp only [calculate_similarity, if_pos hlen, cosine_similarity]
  · simp only [calculate_similarity, cosine_similarity, if_pos rfl, normL_one_zero, dotL]
    norm_num
  · simp only [calculate_similarity, cosine_similarity, if_pos rfl, normL_one_zero,
      normL_negone_zero, dotL]
    norm_num

/-- Witness for C8 at the concrete pair `[1,0]` vs `[1,0]`. -/
theorem similarity_rescaled_cosine_witness :
    calculate_similarity [1, 0] [1, 0] = (cosine_similarity [1, 0] [1, 0] + 1) / 2 ∧
    0 ≤ calculate_similarity [(1 : ℝ), 0] [1, 0] ∧ calculate_similarity [(1 : ℝ), 0] [1, 0] ≤ 1 :=
  similarity_rescaled_cosine.1 [1, 0] [1, 0] rfl
    (by rw [normL_one_zero]; exact one_ne_zero)
    (by rw [normL_one_zero]; exact one_ne_zero)

/- ---------------------------------------------------------------------------
ComparisonService (src/services/comparison_service.py, lines 18-123) over the
ORM rows of src/models/__init__.py.  Only the columns read or written by the
comparison pipeline are carried (the other AuditReport columns are inert
here); `completed_at` is modelled as a set-flag.  The SQLAlchemy session is
the explicit `CompStore`; each `db.commit()` is a store update.
--------------------------------------------------------------------------- -/

/-- `models.AuditReport` as consumed by the comparison service: it reads only
`raw_text` and `embeddings` (never `status`). -/
structure AuditReportM where
  id : Nat
  company_id : Nat
  status : List Char
  raw_text : Option (List Char)
  embeddings : Option (List ℝ)

/-- `models.Comparison`. -/
structure ComparisonRec where
  id : Nat
  company_id : Nat
  source_report_id : Nat
  target_report_id : Nat
  comparison_type : List Char
  status : List Char
  similarity_score : Option ℝ
  key_differences : Option PyVal
  risk_alignment : Option PyVal
  compliance_gaps : Option PyVal
  recommendations : Option PyVal
  section_comparisons : Option (List (List Char × CompOut))
  materiality_assessment : Option MaterialityAssessment
  completed_at_set : Bool

structure CompStore where
  reports : List AuditReportM
  comparisons : List ComparisonRec
  nextComparisonId : Nat

/-- Python truthiness of an optional string column: `None` and `''` are falsy. -/
def truthyText : Option (List Char) → Bool
  | none => false
  | some s => !s.isEmpty

/-- Python truthiness of an optional float-array column: `None` and `[]` are falsy. -/
def truthyEmb : Option (List ℝ) → Bool
  | none => false
  | some v => !v.isEmpty

/-- Mutate-then-commit on the row with the given id. -/
def updateComparison (st : CompStore) (cid : Nat) (f : ComparisonRec → ComparisonRec) :
    CompStore :=
  { st with comparisons := st.comparisons.map (fun c => if c.id == cid then f c else c) }

/-- `ComparisonService.create_comparison`: validates only that both reports
exist (no status or raw-text check), then inserts a `pending` record.  A
missing report raises, the `except` rolls back and re-raises `ValueError`. -/
def create_comparison (st : CompStore) (company_id source_report_id target_report_id : Nat)
    (comparison_type : List Char) : Except (List Char) (ComparisonRec × CompStore) :=
  match st.reports.find? (fun r => r.id == source_report_id),
        st.reports.find? (fun r => r.id == target_report_id) with
  | some _, some _ =>
    let comparison : ComparisonRec :=
      { id := st.nextComparisonId, company_id, source_report_id, target_report_id,
        comparison_type, status := "pending".toList, similarity_score := none,
        key_differences := none, risk_alignment := none, compliance_gaps := none,
        recommendations := none, section_comparisons := none,
        materiality_assessment := none, completed_at_set := false }
    .ok (comparison,
      { st with comparisons := st.comparisons ++ [comparison],
                nextComparisonId := st.nextComparisonId + 1 })
  | _, _ => .error "Failed to create comparison: One or both reports not found".toList

/-- The `comparison.status = 'processing'; db.commit()` step. -/
def processingF : ComparisonRec → ComparisonRec :=
  fun c => { c with status := "processing".toList }

/-- The `except` handler: `comparison.status = 'error'; db.commit()`. -/
def errorF : ComparisonRec → ComparisonRec :=
  fun c => { c with status := "error".toList }

/-- The successful tail of `process_comparison`: results, `status='completed'`,
`completed_at`, section analysis and materiality are all written on the row
before the final commit. -/
noncomputable def completeF (lm : LMCollab) (source_report target_report : AuditReportM) :
    ComparisonRec → ComparisonRec := fun c =>
  let srcText := source_report.raw_text.getD []
  let tgtText := target_report.raw_text.getD []
  let comparison_result := compare_reports lm srcText tgtText
  let similarity_score : ℝ :=
    if truthyEmb source_report.embeddings && truthyEmb target_report.embeddings then
      calculate_similarity (source_report.embeddings.getD [])
        (target_report.embeddings.getD [])
    else 0
  { c with similarity_score := some similarity_score,
           key_differences := some (dictGet comparison_result (fun d => d.key_differences)),
           risk_alignment := some (dictGet comparison_result (fun d => d.risk_alignment)),
           compliance_gaps := some (dictGet comparison_result (fun d => d.compliance_gaps)),
           recommendations := some (dictGet comparison_result (fun d => d.recommendations)),
           status := "completed".toList,
           completed_at_set := true,
           section_comparisons := some (analyze_sections lm srcText tgtText),
           materiality_assessment := some (assess_materiality comparison_result) }

/-- `ComparisonService.process_comparison`.  The status is set to
`processing` and committed before any check; the only precondition actually
tested is Python truthiness of both `raw_text` columns (document `status` is
never consulted).  Any raise lands in the `except` handler, which re-fetches
the row, sets `status='error'` and commits, then re-raises `ValueError`.
`compare_reports` cannot raise, so a failing LM call still reaches the
`completed` commit. -/
noncomputable def process_comparison (lm : LMCollab) (st : CompStore) (comparison_id : Nat) :
    Except (List Char) (Nat × List Char × ℝ × CompOut) × CompStore :=
  match st.comparisons.find? (fun c => c.id == comparison_id) with
  | none => (.error "Failed to process comparison: Comparison not found".toList, st)
  | some comparison =>
    let st1 := updateComparison st comparison_id processingF
    match st1.reports.find? (fun r => r.id == comparison.source_report_id),
          st1.reports.find? (fun r => r.id == comparison.target_report_id) with
    | some source_report, some target_report =>
      if truthyText source_report.raw_text && truthyText target_report.raw_text then
        let comparison_result :=
          compare_reports lm (source_report.raw_text.getD []) (target_report.raw_text.getD [])
        let similarity_score : ℝ :=
          if truthyEmb source_report.embeddings && truthyEmb target_report.embeddings then
            calculate_similarity (source_report.embeddings.getD [])
              (target_report.embeddings.getD [])
          else 0
        (.ok (comparison_id, "completed".toList, similarity_score, comparison_result),
         updateComparison st1 comparison_id (completeF lm source_report target_report))
      else
        (.error "Failed to process comparison: Reports must be processed before comparison".toList,
         updateComparison st1 comparison_id errorF)
    | _, _ =>
      (.error "Failed to process comparison: report row missing".toList,
       updateComparison st1 comparison_id errorF)

theorem find?_append_none {α : Type} (p : α → Bool) :
    ∀ (l1 l2 : List α), l1.find? p = none → (l1 ++ l2).find? p = l2.find? p
  | [], l2, _ => rfl
  | a :: t, l2, h => by
    cases hpa : p a with
    | true =>
      simp only [List.find?, hpa] at h
      exact Option.noConfusion h
    | false =>
      simp only [List.cons_append, List.find?, hpa] at h ⊢
      exact find?_append_none p t l2 h

theorem find?_map_update (cid : Nat) (f : ComparisonRec → ComparisonRec)
    (hid : ∀ c, (f c).id = c.id) :
    ∀ l : List ComparisonRec,
      (l.map (fun c => if c.id == cid then f c else c)).find? (fun c => c.id == cid) =
        (l.find? (fun c => c.id == cid)).map f
  | [] => rfl
  | c :: t => by
    cases hc : (c.id == cid) with
    | true =>
      have hfc : ((f c).id == cid) = true := by rw [hid c]; exact hc
      simp only [List.map_cons, hc, if_true, List.find?, hfc, Option.map_some']
    | false =>
      simp only [List.map_cons, hc, Bool.false_eq_true, if_false, List.find?]
      exact find?_map_update cid f hid t

theorem updateComparison_length (st : CompStore) (cid : Nat) (f : ComparisonRec → ComparisonRec) :
    (updateComparison st cid f).comparisons.length = st.comparisons.length := by
  simp [updateComparison]

theorem find?_double_update (st : CompStore) (cid : Nat) (f g : ComparisonRec → ComparisonRec)
    (hf : ∀ c, (f c).id = c.id) (hg : ∀ c, (g c).id = c.id) :
    (updateComparison (updateComparison st cid f) cid g).comparisons.find?
        (fun c => c.id == cid) =
      ((st.comparisons.find? (fun c => c.id == cid)).map f).map g := by
  show ((st.comparisons.map (fun c => if c.id == cid then f c else c)).map
      (fun c => if c.id == cid then g c else c)).find? (fun c => c.id == cid) = _
  rw [find?_map_update cid g hg, find?_map_update cid f hf]

/-- Evaluation of `process_comparison` when a referenced report's `raw_text`
is falsy: the record goes `processing` then `error`, and `ValueError` is
re-raised. -/
theorem process_comparison_missing_text (lm : LMCollab) (st : CompStore) (cid : Nat)
    (comparison : ComparisonRec) (s t : AuditReportM)
    (hc : st.comparisons.find? (fun c => c.id == cid) = some comparison)
    (hs : st.reports.find? (fun r => r.id == comparison.source_report_id) = some s)
    (ht : st.reports.find? (fun r => r.id == comparison.target_report_id) = some t)
    (hraw : (truthyText s.raw_text && truthyText t.raw_text) = false) :
    process_comparison lm st cid =
      (.error "Failed to process comparison: Reports must be processed before comparison".toList,
       updateComparison (updateComparison st cid processingF) cid errorF) := by
  unfold process_comparison
  rw [hc]
  have hrep : (updateComparison st cid processingF).reports = st.reports := rfl
  simp only [hrep, hs, ht, hraw, Bool.false_eq_true, if_false]

/-- Evaluation of `process_comparison` when both `raw_text` columns are
truthy: the run always reaches the `completed` commit (the LM call cannot
raise), writing `completeF`'s fields. -/
theorem process_comparison_success (lm : LMCollab) (st : CompStore) (cid : Nat)
    (comparison : ComparisonRec) (s t : AuditReportM)
    (hc : st.comparisons.find? (fun c => c.id == cid) = some comparison)
    (hs : st.reports.find? (fun r => r.id == comparison.source_report_id) = some s)
    (ht : st.reports.find? (fun r => r.id == comparison.target_report_id) = some t)
    (h1 : truthyText s.raw_text = true) (h2 : truthyText t.raw_text = true) :
    process_comparison lm st cid =
      (.ok (cid, "completed".toList,
        (if truthyEmb s.embeddings && truthyEmb t.embeddings then
          calculate_similarity (s.embeddings.getD []) (t.embeddings.getD []) else 0),
        compare_reports lm (s.raw_text.getD []) (t.raw_text.getD [])),
       updateComparison (updateComparison st cid processingF) cid (completeF lm s t)) := by
  unfold process_comparison
  rw [hc]
  have hrep : (updateComparison st cid processingF).reports = st.reports := rfl
  simp only [hrep, hs, ht, h1, h2, Bool.and_self, if_true]

/-- The row inserted by `create_comparison`. -/
def newComparison (st : CompStore) (company_id source_report_id target_report_id : Nat)
    (comparison_type : List Char) : ComparisonRec :=
  { id := st.nextComparisonId, company_id, source_report_id, target_report_id,
    comparison_type, status := "pending".toList, similarity_score := none,
    key_differences := none, risk_alignment := none, compliance_gaps := none,
    recommendations := none, section_comparisons := none,
    materiality_assessment := none, completed_at_set := false }

theorem create_comparison_ok (st : CompStore)
    (company_id source_report_id target_report_id : Nat) (comparison_type : List Char)
    (s t : AuditReportM)
    (hs : st.reports.find? (fun r => r.id == source_report_id) = some s)
    (ht : st.reports.find? (fun r => r.id == target_report_id) = some t) :
    create_comparison st company_id source_report_id target_report_id comparison_type =
      .ok (newComparison st company_id source_report_id target_report_id comparison_type,
        { st with
            comparisons := st.comparisons ++
              [newComparison st company_id source_report_id target_report_id comparison_type],
            nextComparisonId := st.nextComparisonId + 1 }) := by
  unfold create_comparison
  rw [hs, ht]
  rfl

/-- C2 (amended): when a referenced document lacks (truthy) raw text,
`create_comparison` nevertheless creates a `pending` Comparison record
(document status is never checked), and `process_comparison` then fails with
a `ValueError`-style error, leaving that record in status `error` — it is not
left in `processing`, and `process_comparison` itself adds no record. -/
theorem comparison_missing_text_behavior
    (lm : LMCollab) (st : CompStore) (company_id source_id target_id : Nat) (ty : List Char)
    (s t : AuditReportM)
    (hs : st.reports.find? (fun r => r.id == source_id) = some s)
    (ht : st.reports.find? (fun r => r.id == target_id) = some t)
    (hraw : (truthyText s.raw_text && truthyText t.raw_text) = false)
    (hfresh : st.comparisons.find? (fun c => c.id == st.nextComparisonId) = none) :
    ∃ comparison st1 st2,
      create_comparison st company_id source_id target_id ty = .ok (comparison, st1) ∧
      comparison.status = "pending".toList ∧
      st1.comparisons.length = st.comparisons.length + 1 ∧
      process_comparison lm st1 comparison.id =
        (.error "Failed to process comparison: Reports must be processed before comparison".toList,
         st2) ∧
      st2.comparisons.length = st1.comparisons.length ∧
      (st2.comparisons.find? (fun c => c.id == comparison.id)).map (fun c => c.status) =
        some "error".toList := by
  set c0 := newComparison st company_id source_id target_id ty with hc0def
  set st1 : CompStore :=
    { st with comparisons := st.comparisons ++ [c0],
              nextComparisonId := st.nextComparisonId + 1 } with hst1def
  have hcreate : create_comparison st company_id source_id target_id ty = .ok (c0, st1) :=
    create_comparison_ok st company_id source_id target_id ty s t hs ht
  have hc1 : st1.comparisons.find? (fun c => c.id == c0.id) = some c0 := by
    show (st.comparisons ++ [c0]).find? (fun c => c.id == c0.id) = some c0
    have hpred : (fun (c : ComparisonRec) => c.id == c0.id) =
        (fun c => c.id == st.nextComparisonId) := rfl
    rw [hpred, find?_append_none _ _ _ hfresh]
    simp [List.find?, hc0def, newComparison]
  have hs1 : st1.reports.find? (fun r => r.id == c0.source_report_id) = some s := hs
  have ht1 : st1.reports.find? (fun r => r.id == c0.target_report_id) = some t := ht
  have hproc := process_comparison_missing_text lm st1 c0.id c0 s t hc1 hs1 ht1 hraw
  refine ⟨c0, st1, _, hcreate, rfl, by simp [hst1def], hproc, ?_, ?_⟩
  · rw [updateComparison_length, updateComparison_length]
  · rw [find?_double_update st1 c0.id processingF errorF (fun c => rfl) (fun c => rfl), hc1]
    rfl

/-- C3 (amended): on every successful comparison run the persisted
`similarity_score` is a value, never unset — it is `0.0` whenever either
embedding column is falsy, and the `calculate_similarity` output (which for
nonzero-norm vectors lies in [0,1]) when both are present. -/
theorem similarity_score_always_set :
    (∀ (lm : LMCollab) (st : CompStore) (cid : Nat) (comparison : ComparisonRec)
        (s t : AuditReportM),
      st.comparisons.find? (fun c => c.id == cid) = some comparison →
      st.reports.find? (fun r => r.id == comparison.source_report_id) = some s →
      st.reports.find? (fun r => r.id == comparison.target_report_id) = some t →
      truthyText s.raw_text = true → truthyText t.raw_text = true →
      ∃ out st2,
        process_comparison lm st cid = (.ok out, st2) ∧
        (st2.comparisons.find? (fun c => c.id == cid)).map (fun c => c.similarity_score) =
          some (some (if truthyEmb s.embeddings && truthyEmb t.embeddings then
            calculate_similarity (s.embeddings.getD []) (t.embeddings.getD []) else 0)) ∧
        ((truthyEmb s.embeddings && truthyEmb t.embeddings) = false →
          (st2.comparisons.find? (fun c => c.id == cid)).map (fun c => c.similarity_score) =
            some (some 0))) ∧
    (∀ a b : List ℝ, normL a ≠ 0 → normL b ≠ 0 →
      0 ≤ calculate_similarity a b ∧ calculate_similarity a b ≤ 1) := by
  constructor
  · intro lm st cid comparison s t hc hs ht h1 h2
    have hproc := process_comparison_success lm st cid comparison s t hc hs ht h1 h2
    have hfind := find?_double_update st cid processingF (completeF lm s t)
      (fun c => rfl) (fun c => rfl)
    rw [hc] at hfind
    refine ⟨_, _, hproc, ?_, ?_⟩
    · rw [hfind]
      rfl
    · intro hemb
      rw [hfind]
      have hval : (completeF lm s t (processingF comparison)).similarity_score =
          some (if truthyEmb s.embeddings && truthyEmb t.embeddings then
            calculate_similarity (s.embeddings.getD []) (t.embeddings.getD []) else 0) := rfl
      simp only [Option.map_some', hval, hemb, Bool.false_eq_true, if_false]
  · intro a b ha hb
    exact calculate_similarity_mem_unit a b ha hb

/-- C4 (amended): a failing holistic LM call does not fail the Comparison:
`compare_reports` catches the failure into an error dict, so
`process_comparison` still commits status `completed`, with the four result
fields persisted as empty dicts pulled out of the error dict by
`dict.get(key, {})`. -/
theorem holistic_failure_still_completes
    (lm : LMCollab) (st : CompStore) (cid : Nat) (comparison : ComparisonRec)
    (s t : AuditReportM) (msg : List Char)
    (hc : st.comparisons.find? (fun c => c.id == cid) = some comparison)
    (hs : st.reports.find? (fun r => r.id == comparison.source_report_id) = some s)
    (ht : st.reports.find? (fun r => r.id == comparison.target_report_id) = some t)
    (h1 : truthyText s.raw_text = true) (h2 : truthyText t.raw_text = true)
    (hlm : lm ((s.raw_text.getD []).take 2000) ((t.raw_text.getD []).take 2000) =
      .error msg) :
    ∃ sim st2,
      process_comparison lm st cid =
        (.ok (cid, "completed".toList, sim,
          .errorDict ("Failed to compare reports: ".toList ++ msg)), st2) ∧
      (st2.comparisons.find? (fun c => c.id == cid)).map (fun c => c.status) =
        some "completed".toList ∧
      (st2.comparisons.find? (fun c => c.id == cid)).map (fun c => c.key_differences) =
        some (some PyVal.emptyDict) ∧
      (st2.comparisons.find? (fun c => c.id == cid)).map (fun c => c.risk_alignment) =
        some (some PyVal.emptyDict) ∧
      (st2.comparisons.find? (fun c => c.id == cid)).map (fun c => c.compliance_gaps) =
        some (some PyVal.emptyDict) ∧
      (st2.comparisons.find? (fun c => c.id == cid)).map (fun c => c.recommendations) =
        some (some PyVal.emptyDict) := by
  have hcr : compare_reports lm (s.raw_text.getD []) (t.raw_text.getD []) =
      .errorDict ("Failed to compare reports: ".toList ++ msg) := by
    unfold compare_reports
    rw [hlm]
  have hproc := process_comparison_success lm st cid comparison s t hc hs ht h1 h2
  rw [hcr] at hproc
  have hfind := find?_double_update st cid processingF (completeF lm s t)
    (fun c => rfl) (fun c => rfl)
  rw [hc] at hfind
  refine ⟨_, _, hproc, ?_, ?_, ?_, ?_, ?_⟩
  · rw [hfind]
    rfl
  · rw [hfind]
    have hval : (completeF lm s t (processingF comparison)).key_differences =
        some (dictGet (compare_reports lm (s.raw_text.getD []) (t.raw_text.getD []))
          (fun d => d.key_differences)) := rfl
    simp only [Option.map_some', hval, hcr]
    rfl
  · rw [hfind]
    have hval : (completeF lm s t (processingF comparison)).risk_alignment =
        some (dictGet (compare_reports lm (s.raw_text.getD []) (t.raw_text.getD []))
          (fun d => d.risk_alignment)) := rfl
    simp only [Option.map_some', hval, hcr]
    rfl
  · rw [hfind]
    have hval : (completeF lm s t (processingF comparison)).compliance_gaps =
        some (dictGet (compare_reports lm (s.raw_text.getD []) (t.raw_text.getD []))
          (fun d => d.compliance_gaps)) := rfl
    simp only [Option.map_some', hval, hcr]
    rfl
  · rw [hfind]
    have hval : (completeF lm s t (processingF comparison)).recommendations =
        some (dictGet (compare_reports lm (s.raw_text.getD []) (t.raw_text.getD []))
          (fun d => d.recommendations)) := rfl
    simp only [Option.map_some', hval, hcr]
    rfl

/- Concrete collaborator stubs and stores for the counterexamples and
witnesses. -/

def lmFail : LMCollab := fun _ _ => .error "LM unavailable".toList

def lmStub : LMCollab := fun _ _ =>
  .ok ⟨some (PyVal.payload 1), some (PyVal.payload 2), some (PyVal.payload 3),
    some (PyVal.payload 4), "key_differences: minor wording differences".toList⟩

def srcPending : AuditReportM :=
  { id := 1, company_id := 10, status := "pending".toList, raw_text := none,
    embeddings := none }

def tgtProcessed : AuditReportM :=
  { id := 2, company_id := 10, status := "processed".toList,
    raw_text := some "beta report text".toList, embeddings := none }

def cst2 : CompStore :=
  { reports := [srcPending, tgtProcessed], comparisons := [], nextComparisonId := 100 }

/-- C2 (counterexample): with source document Pending (no raw text) and target
Processed, `create_comparison` still creates a Comparison record, and the
subsequent `process_comparison` leaves it in status `error` — against the
claim that no record is created. -/
theorem comparison_record_created_counterexample :
    (create_comparison cst2 10 1 2 "internal_vs_sec".toList).toOption.map
        (fun p => p.2.comparisons.length) = some 1 ∧
    (create_comparison cst2 10 1 2 "internal_vs_sec".toList).toOption.map
        (fun p => (process_comparison lmStub p.2 p.1.id).2.comparisons.map
          (fun c => c.status)) = some ["error".toList] :=
  ⟨rfl, rfl⟩

/-- Witness for the amended C2 at the concrete store. -/
theorem comparison_missing_text_witness :
    ∃ comparison st1 st2,
      create_comparison cst2 10 1 2 "internal_vs_sec".toList = .ok (comparison, st1) ∧
      comparison.status = "pending".toList ∧
      st1.comparisons.length = cst2.comparisons.length + 1 ∧
      process_comparison lmStub st1 comparison.id =
        (.error "Failed to process comparison: Reports must be processed before comparison".toList,
         st2) ∧
      st2.comparisons.length = st1.comparisons.length ∧
      (st2.comparisons.find? (fun c => c.id == comparison.id)).map (fun c => c.status) =
        some "error".toList :=
  comparison_missing_text_behavior lmStub cst2 10 1 2 "internal_vs_sec".toList srcPending
    tgtProcessed rfl rfl rfl rfl

def srcNoEmb : AuditReportM :=
  { id := 1, company_id := 10, status := "processed".toList,
    raw_text := some "alpha report text".toList, embeddings := none }

noncomputable def tgtWithEmb : AuditReportM :=
  { id := 2, company_id := 10, status := "processed".toList,
    raw_text := some "beta report text".toList, embeddings := some [1] }

def pendingComparison7 : ComparisonRec :=
  { id := 7, company_id := 10, source_report_id := 1, target_report_id := 2,
    comparison_type := "internal_vs_sec".toList, status := "pending".toList,
    similarity_score := none, key_differences := none, risk_alignment := none,
    compliance_gaps := none, recommendations := none, section_comparisons := none,
    materiality_assessment := none, completed_at_set := false }

noncomputable def cst3 : CompStore :=
  { reports := [srcNoEmb, tgtWithEmb], comparisons := [pendingComparison7],
    nextComparisonId := 8 }

/-- C3 (counterexample): when the source document has no embedding, the
completed comparison's `similarity_score` is persisted as the value 0.0 — not
left unset as the claim requires. -/
theorem similarity_zero_coercion_counterexample :
    (process_comparison lmStub cst3 7).2.comparisons.map (fun c => c.similarity_score) =
      [some 0] ∧
    (process_comparison lmStub cst3 7).2.comparisons.map (fun c => c.status) =
      ["completed".toList] :=
  ⟨rfl, rfl⟩

/-- Witness for the amended C3 at the concrete store and at `[1,0]` `[1,0]`. -/
theorem similarity_score_always_set_witness :
    (∃ out st2,
      process_comparison lmStub cst3 7 = (.ok out, st2) ∧
      (st2.comparisons.find? (fun c => c.id == 7)).map (fun c => c.similarity_score) =
        some (some (if truthyEmb srcNoEmb.embeddings && truthyEmb tgtWithEmb.embeddings then
          calculate_similarity (srcNoEmb.embeddings.getD []) (tgtWithEmb.embeddings.getD [])
        else 0)) ∧
      ((truthyEmb srcNoEmb.embeddings && truthyEmb tgtWithEmb.embeddings) = false →
        (st2.comparisons.find? (fun c => c.id == 7)).map (fun c => c.similarity_score) =
          some (some 0))) ∧
    (0 ≤ calculate_similarity [1, 0] [1, 0] ∧ calculate_similarity [1, 0] [1, 0] ≤ 1) :=
  ⟨similarity_score_always_set.1 lmStub cst3 7 pendingComparison7 srcNoEmb tgtWithEmb
      rfl rfl rfl rfl rfl,
   similarity_score_always_set.2 [1, 0] [1, 0]
      (by rw [normL_one_zero]; exact one_ne_zero)
      (by rw [normL_one_zero]; exact one_ne_zero)⟩

def rAlpha : AuditReportM :=
  { id := 1, company_id := 10, status := "processed".toList,
    raw_text := some "alpha report text".toList, embeddings := none }

def rBeta : AuditReportM :=
  { id := 2, company_id := 10, status := "processed".toList,
    raw_text := some "beta report text".toList, embeddings := none }

def cst4 : CompStore :=
  { reports := [rAlpha, rBeta], comparisons := [pendingComparison7],
    nextComparisonId := 8 }

/-- C4 (counterexample): with the LM collaborator failing, the comparison does
not transition to a failed state — it completes with status `completed` and
the four result fields persisted as empty dicts. -/
theorem holistic_failure_counterexample :
    (process_comparison lmFail cst4 7).2.comparisons.map (fun c => c.status) =
      ["completed".toList] ∧
    (process_comparison lmFail cst4 7).2.comparisons.map (fun c => c.key_differences) =
      [some PyVal.emptyDict] ∧
    (process_comparison lmFail cst4 7).1.toOption.isSome = true :=
  ⟨rfl, rfl, rfl⟩

/-- Witness for the amended C4 at the concrete store. -/
theorem holistic_failure_still_completes_witness :
    ∃ sim st2,
      process_comparison lmFail cst4 7 =
        (.ok (7, "completed".toList, sim,
          .errorDict ("Failed to compare reports: ".toList ++ "LM unavailable".toList)), st2) ∧
      (st2.comparisons.find? (fun c => c.id == 7)).map (fun c => c.status) =
        some "completed".toList ∧
      (st2.comparisons.find? (fun c => c.id == 7)).map (fun c => c.key_differences) =
        some (some PyVal.emptyDict) ∧
      (st2.comparisons.find? (fun c => c.id == 7)).map (fun c => c.risk_alignment) =
        some (some PyVal.emptyDict) ∧
      (st2.comparisons.find? (fun c => c.id == 7)).map (fun c => c.compliance_gaps) =
        some (some PyVal.emptyDict) ∧
      (st2.comparisons.find? (fun c => c.id == 7)).map (fun c => c.recommendations) =
        some (some PyVal.emptyDict) :=
  holistic_failure_still_completes lmFail cst4 7 pendingComparison7 rAlpha rBeta
    "LM unavailable".toList rfl rfl rfl rfl rfl rfl

/- ---------------------------------------------------------------------------
ReportProcessingService._assess_compliance_scores /
_calculate_framework_score (src/services/report_processing_service.py, lines
124-181).  Python float arithmetic and `round(score, 2)` are modelled exactly
over ℚ with round-half-to-even at two decimals.  The function calls no AI
collaborator: the embedding takes no `lm` parameter.  The `except` branches
are unreachable (the scan is total).  The per-framework `description` and
`assessment_date` entries of the returned dicts are inert and omitted.
--------------------------------------------------------------------------- -/

def framework_keywords : List (List Char × List (List Char)) :=
  [("SOX".toList,
     ["internal control".toList, "material weakness".toList,
      "significant deficiency".toList, "financial reporting".toList]),
   ("COSO".toList,
     ["control environment".toList, "risk assessment".toList,
      "control activities".toList, "monitoring".toList]),
   ("PCAOB".toList,
     ["audit standard".toList, "audit opinion".toList,
      "audit evidence".toList, "audit risk".toList]),
   ("SEC".toList,
     ["disclosure".toList, "financial statement".toList,
      "filing".toList, "regulation".toList])]

/-- Python `round(x)` on a nonnegative value: round half to even. -/
def rndHalfEven (q : ℚ) : ℤ :=
  if q - (⌊q⌋ : ℚ) < 1/2 then ⌊q⌋
  else if 1/2 < q - (⌊q⌋ : ℚ) then ⌊q⌋ + 1
  else if ⌊q⌋ % 2 = 0 then ⌊q⌋ else ⌊q⌋ + 1

/-- Python `round(score, 2)`. -/
def pyRound2 (q : ℚ) : ℚ := (rndHalfEven (q * 100) : ℚ) / 100

/-- `sum(text_lower.count(keyword) for keyword in keywords)`. -/
def keywordCountFor (framework text_lower : List Char) : Nat :=
  (((framework_keywords.lookup framework).getD []).map
    (fun keyword => countOcc keyword text_lower)).sum

def calculate_framework_score (text framework : List Char) : ℚ :=
  let text_lower := lowerL text
  let keyword_count := keywordCountFor framework text_lower
  let word_count := wordCount text
  let frequency : ℚ :=
    if word_count > 0 then (keyword_count : ℚ) / (word_count : ℚ) else 0
  let score := min (frequency * 1000) 100
  pyRound2 score

def assess_compliance_scores (text : List Char) : List (List Char × ℚ) :=
  [("SOX".toList, calculate_framework_score text "SOX".toList),
   ("COSO".toList, calculate_framework_score text "COSO".toList),
   ("PCAOB".toList, calculate_framework_score text "PCAOB".toList),
   ("SEC".toList, calculate_framework_score text "SEC".toList)]

theorem rndHalfEven_bounds (q : ℚ) (c : ℤ) (h0 : 0 ≤ q) (hc : q ≤ (c : ℚ)) :
    0 ≤ rndHalfEven q ∧ rndHalfEven q ≤ c := by
  have hf0 : 0 ≤ ⌊q⌋ := Int.floor_nonneg.2 h0
  have hfq : (⌊q⌋ : ℚ) ≤ q := Int.floor_le q
  have hfc : ⌊q⌋ ≤ c := by exact_mod_cast hfq.trans hc
  unfold rndHalfEven
  split
  · exact ⟨hf0, hfc⟩
  · rename_i hr
    push_neg at hr
    have hlt : ⌊q⌋ < c := by
      have hq : (⌊q⌋ : ℚ) + 1/2 ≤ (c : ℚ) := by linarith
      have : (⌊q⌋ : ℚ) < (c : ℚ) := by linarith
      exact_mod_cast this
    split
    · exact ⟨by omega, by omega⟩
    · split
      · exact ⟨hf0, hfc⟩
      · exact ⟨by omega, by omega⟩

theorem pyRound2_bounds (q : ℚ) (h0 : 0 ≤ q) (hc : q ≤ 100) :
    0 ≤ pyRound2 q ∧ pyRound2 q ≤ 100 := by
  have h := rndHalfEven_bounds (q * 100) 10000 (by positivity) (by push_cast; linarith)
  unfold pyRound2
  constructor
  · have h1 : (0 : ℚ) ≤ (rndHalfEven (q * 100) : ℚ) := by exact_mod_cast h.1
    positivity
  · have h2 : (rndHalfEven (q * 100) : ℚ) ≤ 10000 := by exact_mod_cast h.2
    rw [div_le_iff₀ (by norm_num : (0 : ℚ) < 100)]
    linarith

theorem calculate_framework_score_bounds (text fw : List Char) :
    0 ≤ calculate_framework_score text fw ∧ calculate_framework_score text fw ≤ 100 := by
  unfold calculate_framework_score
  have hfreq : (0 : ℚ) ≤
      (if wordCount text > 0 then
        ((keywordCountFor fw (lowerL text) : ℚ)) / (wordCount text : ℚ) else 0) := by
    split
    · positivity
    · exact le_refl 0
  exact pyRound2_bounds _
    (le_min (mul_nonneg hfreq (by norm_num)) (by norm_num)) (min_le_right _ _)

/-- C9 (amended): the compliance assessment needs no AI collaborator (the
embedding takes none) and always yields exactly the four frameworks
SOX/COSO/PCAOB/SEC; each score is `round(min((count/words)*1000, 100), 2)` —
the claim's formula up to the final 2-decimal rounding — each score lies in
[0,100], and a zero word count scores 0. -/
theorem compliance_scores_degraded_mode :
    (∀ text : List Char,
      (assess_compliance_scores text).map Prod.fst =
        ["SOX".toList, "COSO".toList, "PCAOB".toList, "SEC".toList]) ∧
    (∀ (text fw : List Char) (score : ℚ), (fw, score) ∈ assess_compliance_scores text →
      score = pyRound2 (min ((if wordCount text > 0 then
        (keywordCountFor fw (lowerL text) : ℚ) / (wordCount text : ℚ) else 0) * 1000) 100)) ∧
    (∀ text fw : List Char, 0 ≤ calculate_framework_score text fw ∧
      calculate_framework_score text fw ≤ 100) ∧
    (∀ text fw : List Char, wordCount text = 0 → calculate_framework_score text fw = 0) := by
  refine ⟨fun text => rfl, ?_, fun text fw => calculate_framework_score_bounds text fw, ?_⟩
  · intro text fw score hmem
    simp only [assess_compliance_scores, List.mem_cons, List.not_mem_nil, or_false,
      Prod.mk.injEq] at hmem
    rcases hmem with ⟨h1, h2⟩ | ⟨h1, h2⟩ | ⟨h1, h2⟩ | ⟨h1, h2⟩ <;> subst h1 <;> subst h2 <;> rfl
  · intro text fw hw
    unfold calculate_framework_score
    rw [hw]
    have hmin : min ((0 : ℚ) * 1000) 100 = 0 := by
      rw [min_eq_left (by norm_num)]
      norm_num
    norm_num [hmin]
    unfold pyRound2 rndHalfEven
    norm_num

def complianceText30 : List Char :=
  "internal control w w w w w w w w w w w w w w w w w w w w w w w w w w w w".toList

theorem complianceText30_score :
    calculate_framework_score complianceText30 "SOX".toList = 3333/100 := by
  have h1 : keywordCountFor "SOX".toList (lowerL complianceText30) = 1 := by decide
  have h2 : wordCount complianceText30 = 30 := by decide
  simp only [calculate_framework_score]
  rw [h1, h2]
  have hif : (if 30 > 0 then ((1 : Nat) : ℚ) / ((30 : Nat) : ℚ) else 0) = 1/30 := by
    norm_num
  rw [hif, min_eq_left (by norm_num)]
  unfold pyRound2 rndHalfEven
  have hfloor : ⌊(1/30 : ℚ) * 1000 * 100⌋ = 3333 := by
    rw [Int.floor_eq_iff]
    norm_num
  rw [hfloor]
  norm_num

/-- C9 (counterexample): with 1 keyword occurrence in 30 words the claim's
formula gives `min((1/30)*1000, 100) = 100/3`, but the code rounds to two
decimals and returns `33.33`. -/
theorem compliance_score_rounding_counterexample :
    calculate_framework_score complianceText30 "SOX".toList = 3333/100 ∧
    ¬ calculate_framework_score complianceText30 "SOX".toList =
        min (((1 : ℚ) / 30) * 1000) 100 := by
  refine ⟨complianceText30_score, ?_⟩
  rw [complianceText30_score, min_eq_left (by norm_num)]
  norm_num

/-- Witness for the amended C9: zero-word text scores 0, and the concrete
30-word text's score lies in [0,100]. -/
theorem compliance_scores_degraded_mode_witness :
    calculate_framework_score [] "SOX".toList = 0 ∧
    (0 ≤ calculate_framework_score complianceText30 "SOX".toList ∧
      calculate_framework_score complianceText30 "SOX".toList ≤ 100) :=
  ⟨compliance_scores_degraded_mode.2.2.2 [] "SOX".toList rfl,
   compliance_scores_degraded_mode.2.2.1 complianceText30 "SOX".toList⟩

/- ---------------------------------------------------------------------------
AuditService.process_upload (src/services/audit_service.py, lines 28-72) and
DocumentProcessor.calculate_hash (src/services/document_processor.py, lines
62-68).  `hashlib.sha256` is the external digest collaborator, passed in as an
arbitrary function `sha256 : List Nat → Nat` on the byte content; the dedup
logic does not depend on which digest is used, and determinism of the
fingerprint is inherited from `sha256` being a function.  The filesystem
(`_save_file`) and the database session are the explicit `AuditStore`.  The
fire-and-forget `asyncio.create_task(self._process_document(...))` background
pipeline is a separate transition, not part of this call's state change.
--------------------------------------------------------------------------- -/

/-- Reading the file in 4096-byte chunks, as `calculate_hash` feeds them to
the digest. -/
def chunksOf (n : Nat) (l : List Nat) : List (List Nat) :=
  if h : l = [] ∨ n = 0 then [] else l.take n :: chunksOf n (l.drop n)
termination_by l.length
decreasing_by
  push_neg at h
  have hpos : 0 < l.length := List.length_pos.2 h.1
  simp only [List.length_drop]
  omega

/-- `DocumentProcessor.calculate_hash`: digest of the 4096-byte chunks fed in
sequence, i.e. of their concatenation. -/
def calculate_hash (sha256 : List Nat → Nat) (content : List Nat) : Nat :=
  sha256 (chunksOf 4096 content).flatten

theorem flatten_chunksOf_fuel (n : Nat) (hn : 0 < n) :
    ∀ (k : Nat) (l : List Nat), l.length ≤ k → (chunksOf n l).flatten = l := by
  intro k
  induction k with
  | zero =>
    intro l hl
    have hnil : l = [] := List.eq_nil_of_length_eq_zero (Nat.le_zero.1 hl)
    subst hnil
    unfold chunksOf
    simp
  | succ k ih =>
    intro l hl
    unfold chunksOf
    split
    · rename_i h
      rcases h with h | h
      · simp [h]
      · omega
    · rename_i h
      push_neg at h
      have hpos : 0 < l.length := List.length_pos.2 h.1
      simp only [List.flatten_cons]
      rw [ih (l.drop n) (by simp only [List.length_drop]; omega)]
      exact List.take_append_drop n l

theorem flatten_chunksOf (n : Nat) (hn : 0 < n) (l : List Nat) :
    (chunksOf n l).flatten = l :=
  flatten_chunksOf_fuel n hn l.length l (le_refl _)

/-- A FastAPI `UploadFile`: metadata plus the byte content read by
`file.read()`. -/
structure UploadFile where
  filename : List Char
  content_type : List Char
  size : Nat
  content : List Nat
deriving DecidableEq

/-- `database_models.AuditReport` as written by `process_upload`. -/
structure AuditReportRec where
  id : Nat
  company_id : List Char
  title : List Char
  report_type : List Char
  file_path : List Char
  file_name : List Char
  file_size : Nat
  content_hash : Nat
  extraction_status : List Char
deriving DecidableEq

/-- The persistence and object-storage collaborators: database rows plus the
upload directory's path-to-bytes map. -/
structure AuditStore where
  reports : List AuditReportRec
  files : List (List Char × List Nat)
  nextId : Nat
deriving DecidableEq

def allowed_types : List (List Char) :=
  ["application/pdf".toList,
   "application/vnd.openxmlformats-officedocument.wordprocessingml.document".toList,
   "text/plain".toList]

/-- `AuditService._validate_file`: content type in the allow-list and size at
most 50MB (the modelled file always has its `size` attribute). -/
def validate_file (file : UploadFile) : Bool :=
  allowed_types.contains file.content_type && file.size ≤ 50 * 1024 * 1024

/-- `AuditService._check_duplicate`: first stored report with this content
hash (`scalar_one_or_none`; under the fingerprint-uniqueness invariant there
is at most one). -/
def check_duplicate (st : AuditStore) (content_hash : Nat) : Option AuditReportRec :=
  st.reports.find? (fun r => r.content_hash == content_hash)

/-- `settings.UPLOAD_PATH` (`./data/uploads`). -/
def UPLOAD_PATH : List Char := "./data/uploads".toList

def replaceChar (s : List Char) (a b : Char) : List Char :=
  s.map (fun c => if c == a then b else c)

/-- `pathlib.Path(p).name`: the part after the last slash. -/
def pathBase (p : List Char) : List Char :=
  (p.reverse.takeWhile (fun c => c != '/')).reverse

/-- `pathlib.Path(p).stem`: the name without its suffix; pathlib strips from
the last dot only when it is neither the first nor the last character of the
name. -/
def pathStem (p : List Char) : List Char :=
  let name := pathBase p
  let revExt := name.reverse.takeWhile (fun c => c != '.')
  if revExt.length = name.length then name
  else
    let i := name.length - 1 - revExt.length
    if 0 < i ∧ 0 < revExt.length then name.take i else name

/-- Python `str.title()` on ASCII: start of each letter run is uppercased,
the rest lowercased. -/
def pyTitleAux : List Char → Bool → List Char
  | [], _ => []
  | c :: t, prevAlpha =>
    (if c.isAlpha then (if prevAlpha then c.toLower else c.toUpper) else c) ::
      pyTitleAux t c.isAlpha

def pyTitle (s : List Char) : List Char := pyTitleAux s false

/-- `AuditService._extract_title`. -/
def extract_title (filename : List Char) : List Char :=
  pyTitle (replaceChar (replaceChar (pathStem filename) '_' ' ') '-' ' ')

/-- `AuditService.process_upload`: validate, fingerprint, short-circuit on a
duplicate, otherwise save the file (overwriting any file at the same path)
and insert a `pending` record. -/
def process_upload (sha256 : List Nat → Nat) (st : AuditStore) (file : UploadFile)
    (report_type company_id : List Char) :
    Except (List Char) (AuditReportRec × AuditStore) :=
  if !validate_file file then
    .error "Failed to process upload: Invalid file format or size".toList
  else
    let content := file.content
    let content_hash := sha256 content
    match check_duplicate st content_hash with
    | some existing => .ok (existing, st)
    | none =>
      let file_path := UPLOAD_PATH ++ '/' :: file.filename
      let audit_report : AuditReportRec :=
        { id := st.nextId, company_id, title := extract_title file.filename, report_type,
          file_path, file_name := file.filename, file_size := content.length,
          content_hash, extraction_status := "pending".toList }
      .ok (audit_report,
        { reports := st.reports ++ [audit_report],
          files := (file_path, content) :: st.files.filter (fun kv => !(kv.1 == file_path)),
          nextId := st.nextId + 1 })

/-- At most one stored report per content fingerprint. -/
def UniqueFingerprint (st : AuditStore) : Prop :=
  st.reports.Pairwise (fun a b => a.content_hash ≠ b.content_hash)

/-- C10: an upload whose content hash matches an already-stored report returns
that existing record and performs no state change at all: no file is written
and no database record is added — the store is returned untouched. -/
theorem duplicate_upload_no_state_change (sha256 : List Nat → Nat) (st : AuditStore)
    (file : UploadFile) (report_type company_id : List Char) (r : AuditReportRec)
    (hvalid : validate_file file = true)
    (hdup : check_duplicate st (sha256 file.content) = some r) :
    process_upload sha256 st file report_type company_id = .ok (r, st) := by
  unfold process_upload
  rw [hvalid]
  simp only [Bool.not_true, Bool.false_eq_true, if_false, hdup]

/-- C1: re-uploading byte-identical content returns the identity of the record
produced by the first upload and leaves the store unchanged (no second record);
fingerprint uniqueness (at most one stored report per content hash) is
preserved by uploads; and the chunked `calculate_hash` digests exactly the
whole byte content, so the fingerprint is deterministic in the bytes. -/
theorem upload_idempotent (sha256 : List Nat → Nat) (st : AuditStore)
    (f1 f2 : UploadFile) (rt1 rt2 c1 c2 : List Char) (r : AuditReportRec) (st1 : AuditStore)
    (hvalid2 : validate_file f2 = true)
    (hcontent : f2.content = f1.content)
    (h1 : process_upload sha256 st f1 rt1 c1 = .ok (r, st1)) :
    process_upload sha256 st1 f2 rt2 c2 = .ok (r, st1) ∧
    (UniqueFingerprint st → UniqueFingerprint st1) ∧
    calculate_hash sha256 f1.content = sha256 f1.content := by
  have hhash : calculate_hash sha256 f1.content = sha256 f1.content := by
    unfold calculate_hash
    rw [flatten_chunksOf 4096 (by norm_num) f1.content]
  unfold process_upload at h1
  cases hv1 : validate_file f1 with
  | false =>
    rw [hv1] at h1
    simp at h1
  | true =>
    rw [hv1] at h1
    simp only [Bool.not_true, Bool.false_eq_true, if_false] at h1
    cases hdup : check_duplicate st (sha256 f1.content) with
    | some r0 =>
      rw [hdup] at h1
      obtain ⟨hr, hst⟩ : r0 = r ∧ st = st1 := by
        have := h1
        simp only [Except.ok.injEq, Prod.mk.injEq] at this
        exact this
      subst hr
      subst hst
      refine ⟨?_, fun hu => hu, hhash⟩
      unfold process_upload
      rw [hvalid2]
      simp only [Bool.not_true, Bool.false_eq_true, if_false, hcontent, hdup]
    | none =>
      rw [hdup] at h1
      simp only [Except.ok.injEq, Prod.mk.injEq] at h1
      obtain ⟨hr, hst⟩ := h1
      refine ⟨?_, ?_, hhash⟩
      · unfold process_upload
        rw [hvalid2]
        simp only [Bool.not_true, Bool.false_eq_true, if_false, hcontent]
        have hfind : check_duplicate st1 (sha256 f1.content) = some r := by
          unfold check_duplicate
          rw [← hst]
          show (st.reports ++ [_]).find? _ = _
          rw [find?_append_none _ _ _ hdup]
          rw [← hr]
          simp [List.find?]
        rw [hfind]
      · intro hu
        rw [← hst]
        show (st.reports ++ [_]).Pairwise _
        rw [List.pairwise_append]
        refine ⟨hu, List.pairwise_singleton _ _, ?_⟩
        intro a ha b hb
        rw [List.mem_singleton] at hb
        subst hb
        intro heq
        have hnone := List.find?_eq_none.1 hdup a ha
        apply hnone
        have hhash_a : a.content_hash = sha256 f1.content := heq
        simp [check_duplicate, hhash_a]

def fW : UploadFile :=
  { filename := "report_q1.txt".toList, content_type := "text/plain".toList,
    size := 3, content := [10, 20, 30] }

def r0W : AuditReportRec :=
  { id := 0, company_id := "c1".toList, title := "Report Q1".toList,
    report_type := "internal".toList, file_path := "./data/uploads/report_q1.txt".toList,
    file_name := "report_q1.txt".toList, file_size := 3, content_hash := 60,
    extraction_status := "pending".toList }

def st0W : AuditStore :=
  { reports := [r0W], files := [("./data/uploads/report_q1.txt".toList, [10, 20, 30])],
    nextId := 1 }

/-- Witness for C1 at a concrete store already holding the fingerprint. -/
theorem upload_idempotent_witness :
    process_upload List.sum st0W fW "internal".toList "c1".toList = .ok (r0W, st0W) ∧
    (UniqueFingerprint st0W → UniqueFingerprint st0W) ∧
    calculate_hash List.sum fW.content = List.sum fW.content :=
  upload_idempotent List.sum st0W fW fW "internal".toList "internal".toList "c1".toList
    "c1".toList r0W st0W (by decide) rfl rfl

/-- Witness for C10 at the same concrete store. -/
theorem duplicate_upload_no_state_change_witness :
    process_upload List.sum st0W fW "vendor".toList "c9".toList = .ok (r0W, st0W) :=
  duplicate_upload_no_state_change List.sum st0W fW "vendor".toList "c9".toList r0W
    (by decide) rfl
